import Mathlib

/-!
A shallow embedding of the LC-3 virtual machine from `src/machine.rs` and
`src/utils.rs`, together with theorems checking the natural-language
specification against it.

Modelling conventions:
* Rust `u16` values are represented as `Nat`; operations that wrap in Rust
  (release-mode `+` on `u16`, `+=` in `Machine::addr`) take an explicit
  `% 65536`.  Shift amounts on `u16` are masked modulo the bit width 16,
  which is Rust's release-mode (`wrapping_shl`/`wrapping_shr`) behaviour.
* Bitwise complement `!x` on `u16` is `x ^^^ 0xFFFF`.
* The register file `reg: [u16; 10]` and memory `mem: [u16; 1<<16]` are
  represented as functions `Nat → Nat`; the code only ever indexes them
  with in-range indices (register indices come from 3-bit fields plus the
  constants `PC = 8` and `COND = 9`; addresses are `u16`).
* `Machine::step` can `panic!` on an unrecognized trap vector, so its
  embedding returns `Option Machine`, with `none` for the panic.
  `log::warn!`/`trace!` calls have no machine-visible effect.
-/

namespace LC3

/-- `MEM_SIZE` from `machine.rs` (`1<<16`). -/
def MEM_SIZE : Nat := 65536

/-- `REG_SIZE` from `machine.rs`. -/
def REG_SIZE : Nat := 10

/-- Register index of the program counter. -/
def PC : Nat := 8

/-- Register index of the condition-flag register. -/
def COND : Nat := 9

/-- Condition flag `POS = 1 << 0`. -/
def POS : Nat := 1

/-- Condition flag `ZRO = 1 << 1`. -/
def ZRO : Nat := 2

/-- Condition flag `NEG = 1 << 2`. -/
def NEG : Nat := 4

/-- `sign_extend` from `utils.rs`:
`if (n >> (size-1)) & 0x1 == 0 { n } else { n | (0xFFFF << size) }`.
Shift amounts on `u16` are masked modulo 16 (Rust release semantics), and
the `u16` result of the left shift is reduced `% 65536`. -/
def sign_extend (n : Nat) (size : Nat) : Nat :=
  if (n >>> ((size - 1) % 16)) &&& 1 = 0 then n
  else n ||| ((0xFFFF <<< (size % 16)) % 65536)

/-- The machine state of `struct Machine`. -/
structure Machine where
  reg : Nat → Nat
  mem : Nat → Nat
  halt : Bool

/-- `Machine::new`: zeroed registers and memory, `halt: true`. -/
def Machine.new : Machine :=
  ⟨fun _ => 0, fun _ => 0, true⟩

/-- `Machine::getr`. -/
def Machine.getr (m : Machine) (r : Nat) : Nat := m.reg r

/-- `Machine::setr`. -/
def Machine.setr (m : Machine) (r val : Nat) : Machine :=
  ⟨fun i => if i = r then val else m.reg i, m.mem, m.halt⟩

/-- `Machine::addr`: `self.reg[r] += val` with `u16` wraparound. -/
def Machine.addr (m : Machine) (r val : Nat) : Machine :=
  m.setr r ((m.getr r + val) % 65536)

/-- `Machine::getm`. -/
def Machine.getm (m : Machine) (a : Nat) : Nat := m.mem a

/-- `Machine::setm`. -/
def Machine.setm (m : Machine) (a val : Nat) : Machine :=
  ⟨m.reg, fun i => if i = a then val else m.mem i, m.halt⟩

/-- `Machine::init`: clear `halt` and set `PC` to `0x3000`. -/
def Machine.init (m : Machine) : Machine :=
  (Machine.mk m.reg m.mem false).setr PC 0x3000

/-- `Machine::set_cond`.  The local `val` of the source is inlined as
`m.getr r` (a pure read).  For a nonzero `u16` value,
`(val as i16) > 0` holds exactly when `val < 0x8000`. -/
def Machine.set_cond (m : Machine) (r : Nat) : Machine :=
  if m.getr r = 0 then m.setr COND ZRO
  else if m.getr r < 0x8000 then m.setr COND POS
  else m.setr COND NEG

/-- The fetched instruction word: `self.getm(self.getr(PC))`. -/
def Machine.fetch (m : Machine) : Nat := m.getm (m.getr PC)

/-- The machine after the post-fetch PC increment `self.addr(PC, 1)`. -/
def Machine.inc (m : Machine) : Machine := m.addr PC 1

/-- The opcode-dispatch block of `Machine::step`: `m` is the machine
after the post-fetch PC increment (every register/memory access of the
source's match block happens on that state) and `instr` the previously
fetched word.  The dispatch follows the `OP` enum order (`BR = 0`,
`ADD = 1`, `LD = 2`, `ST = 3`, `JSR = 4`, `AND = 5`, `LDR = 6`,
`STR = 7`, `RTI = 8`, `NOT = 9`, `LDI = 10`, `STI = 11`, `JMP = 12`,
`RES = 13`, `LEA = 14`, `TRAP = 15`); for a 16-bit instruction word the
final arm can only be opcode 15.  The source's locals `dr`, `sr`, `sr1`,
`sr2`, `base`, `imm`, `offset`, `n`, `z`, `p`, `N`, `Z`, `P` are written
out at each use.  `none` models the `panic!` on an unrecognized trap
vector (`TRAP::from_u16` succeeds exactly for `0x20..=0x25`); `RTI` and
`RES` only log a warning. -/
def Machine.exec (m : Machine) (instr : Nat) : Option Machine :=
  if instr >>> 12 = 0 then -- BR
    if ((instr >>> 11) &&& 0x1 = 0 ∧ m.getr COND = NEG) ∨
       ((instr >>> 10) &&& 0x1 = 0 ∧ m.getr COND = ZRO) ∨
       ((instr >>> 9) &&& 0x1 = 0 ∨ m.getr COND = POS) then
      some (m.addr PC (sign_extend (instr &&& 0x1FF) 9))
    else some m
  else if instr >>> 12 = 1 then -- ADD
    if (instr >>> 5) &&& 0x1 = 1 then
      some ((m.setr ((instr >>> 9) &&& 0x7)
        ((m.getr ((instr >>> 6) &&& 0x7) +
          sign_extend (instr &&& 0x1F) 5) % 65536)).set_cond
            ((instr >>> 9) &&& 0x7))
    else
      some ((m.setr ((instr >>> 9) &&& 0x7)
        ((m.getr ((instr >>> 6) &&& 0x7) +
          m.getr (instr &&& 0x7)) % 65536)).set_cond
            ((instr >>> 9) &&& 0x7))
  else if instr >>> 12 = 2 then -- LD
    some ((m.setr ((instr >>> 9) &&& 0x7)
      (m.getm ((m.getr PC +
        sign_extend (instr &&& 0x1FF) 9) % 65536))).set_cond
          ((instr >>> 9) &&& 0x7))
  else if instr >>> 12 = 3 then -- ST
    some (m.setm ((PC + sign_extend (instr &&& 0x1FF) 9) % 65536)
      (m.getr ((instr >>> 9) &&& 0x7)))
  else if instr >>> 12 = 4 then -- JSR
    if (instr >>> 11) &&& 0x1 = 1 then
      some ((m.setr 0x7 (m.getr PC)).addr PC
        (sign_extend (instr &&& 0x7FF) 11))
    else
      some ((m.setr 0x7 (m.getr PC)).setr PC ((instr >>> 6) &&& 0x7))
  else if instr >>> 12 = 5 then -- AND
    if (instr >>> 5) &&& 0x1 = 1 then
      some (m.setr ((instr >>> 9) &&& 0x7)
        (m.getr ((instr >>> 6) &&& 0x7) &&& sign_extend (instr &&& 0x1F) 5))
    else
      some (m.setr ((instr >>> 9) &&& 0x7)
        (m.getr ((instr >>> 6) &&& 0x7) &&& m.getr (instr &&& 0x7)))
  else if instr >>> 12 = 6 then -- LDR
    some (m.setr ((instr >>> 9) &&& 0x7)
      (m.getm ((((instr >>> 6) &&& 0x7) +
        sign_extend (instr &&& 0x3F) 6) % 65536)))
  else if instr >>> 12 = 7 then -- STR
    some (m.setm ((((instr >>> 6) &&& 0x7) +
      sign_extend (instr &&& 0x3F) 6) % 65536)
        (m.getr ((instr >>> 9) &&& 0x7)))
  else if instr >>> 12 = 8 then -- RTI: warn only
    some m
  else if instr >>> 12 = 9 then -- NOT
    some ((m.setr ((instr >>> 9) &&& 0x7)
      (m.getr ((instr >>> 9) &&& 0x7) ^^^ 0xFFFF)).set_cond
        ((instr >>> 9) &&& 0x7))
  else if instr >>> 12 = 10 then -- LDI
    some ((m.setr ((instr >>> 9) &&& 0x7)
      (m.getm (m.getm ((m.getr PC +
        sign_extend (instr &&& 0x1FF) 9) % 65536)))).set_cond
          ((instr >>> 9) &&& 0x7))
  else if instr >>> 12 = 11 then -- STI
    some (m.setm (m.getm ((PC + sign_extend (instr &&& 0x1FF) 9) % 65536))
      (m.getr ((instr >>> 9) &&& 0x7)))
  else if instr >>> 12 = 12 then -- JMP
    some (m.setr PC ((instr >>> 6) &&& 0x7))
  else if instr >>> 12 = 13 then -- RES: warn only
    some m
  else if instr >>> 12 = 14 then -- LEA
    some ((m.setr ((instr >>> 9) &&& 0x7)
      ((m.getr PC + sign_extend (instr &&& 0x1FF) 9) % 65536)).set_cond
        ((instr >>> 9) &&& 0x7))
  else -- TRAP
    if 0x20 ≤ instr &&& 0xFF ∧ instr &&& 0xFF ≤ 0x25 then
      some (m.setr 0x7 (m.getr PC))
    else none

/-- `Machine::step`: fetch the word at PC, advance PC by one, then
dispatch on the opcode. -/
def Machine.step (m : Machine) : Option Machine :=
  (m.inc).exec m.fetch

/-! ## Basic state-access lemmas -/

theorem getr_setr (m : Machine) (r v i : Nat) :
    (m.setr r v).getr i = if i = r then v else m.getr i := rfl

theorem getr_setr_self (m : Machine) (r v : Nat) : (m.setr r v).getr r = v := by
  simp [getr_setr]

theorem getr_setr_ne (m : Machine) (r v i : Nat) (h : i ≠ r) :
    (m.setr r v).getr i = m.getr i := by
  simp [getr_setr, h]

theorem getm_setr (m : Machine) (r v a : Nat) : (m.setr r v).getm a = m.getm a := rfl

theorem getr_setm (m : Machine) (a v i : Nat) : (m.setm a v).getr i = m.getr i := rfl

theorem getm_setm (m : Machine) (a v b : Nat) :
    (m.setm a v).getm b = if b = a then v else m.getm b := rfl

theorem halt_setr (m : Machine) (r v : Nat) : (m.setr r v).halt = m.halt := rfl

theorem halt_setm (m : Machine) (a v : Nat) : (m.setm a v).halt = m.halt := rfl

theorem halt_addr (m : Machine) (r v : Nat) : (m.addr r v).halt = m.halt := rfl

theorem getr_addr (m : Machine) (r v i : Nat) :
    (m.addr r v).getr i = if i = r then (m.getr r + v) % 65536 else m.getr i := rfl

theorem getm_addr (m : Machine) (r v a : Nat) : (m.addr r v).getm a = m.getm a := rfl

theorem halt_set_cond (m : Machine) (r : Nat) : (m.set_cond r).halt = m.halt := by
  unfold Machine.set_cond
  split
  · rfl
  · split <;> rfl

theorem getr_set_cond_ne (m : Machine) (r i : Nat) (h : i ≠ COND) :
    (m.set_cond r).getr i = m.getr i := by
  unfold Machine.set_cond
  split
  · exact getr_setr_ne _ _ _ _ h
  · split <;> exact getr_setr_ne _ _ _ _ h

theorem getr_set_cond_cond (m : Machine) (r : Nat) :
    (m.set_cond r).getr COND = POS ∨ (m.set_cond r).getr COND = ZRO ∨
      (m.set_cond r).getr COND = NEG := by
  unfold Machine.set_cond
  split
  · exact Or.inr (Or.inl (getr_setr_self _ _ _))
  · split
    · exact Or.inl (getr_setr_self _ _ _)
    · exact Or.inr (Or.inr (getr_setr_self _ _ _))

theorem and7_lt (x : Nat) : x &&& 0x7 < 8 :=
  Nat.lt_succ_of_le Nat.and_le_right

theorem halt_inc (m : Machine) : (m.inc).halt = m.halt := rfl

theorem getm_inc (m : Machine) (a : Nat) : (m.inc).getm a = m.getm a := rfl

theorem getr_inc (m : Machine) (i : Nat) :
    (m.inc).getr i = if i = PC then (m.getr PC + 1) % 65536 else m.getr i := rfl

/-- Case analysis over the dispatch block: no arm writes the halt flag,
and every arm either leaves COND unchanged or routes it through
`set_cond`, which writes one of the three legal flags. -/
theorem exec_shape (m : Machine) (instr : Nat) (m2 : Machine)
    (h : m.exec instr = some m2) :
    m2.halt = m.halt ∧
      (m2.getr COND = m.getr COND ∨ m2.getr COND = POS ∨
       m2.getr COND = ZRO ∨ m2.getr COND = NEG) := by
  have hPC : COND ≠ PC := by simp [COND, PC]
  have h7 : COND ≠ 7 := by simp [COND]
  have hdr : ∀ x : Nat, COND ≠ x &&& 0x7 := by
    intro x
    have := and7_lt x
    simp only [COND]
    omega
  unfold Machine.exec at h
  by_cases q0 : instr >>> 12 = 0
  · rw [if_pos q0] at h
    split_ifs at h <;>
      (injection h with h; subst h;
       exact ⟨by simp [halt_set_cond, halt_setr, halt_setm, halt_addr],
         Or.inl (by simp [getr_setr, getr_setm, getr_addr, hPC, h7, hdr])⟩)
  rw [if_neg q0] at h
  by_cases q1 : instr >>> 12 = 1
  · rw [if_pos q1] at h
    split_ifs at h <;>
      (injection h with h; subst h;
       exact ⟨by simp [halt_set_cond, halt_setr, halt_setm, halt_addr],
         Or.inr (getr_set_cond_cond _ _)⟩)
  rw [if_neg q1] at h
  by_cases q2 : instr >>> 12 = 2
  · rw [if_pos q2] at h
    injection h with h; subst h
    exact ⟨by simp [halt_set_cond, halt_setr, halt_setm, halt_addr],
      Or.inr (getr_set_cond_cond _ _)⟩
  rw [if_neg q2] at h
  by_cases q3 : instr >>> 12 = 3
  · rw [if_pos q3] at h
    injection h with h; subst h
    exact ⟨by simp [halt_set_cond, halt_setr, halt_setm, halt_addr],
      Or.inl (by simp [getr_setr, getr_setm, getr_addr, hPC, h7, hdr])⟩
  rw [if_neg q3] at h
  by_cases q4 : instr >>> 12 = 4
  · rw [if_pos q4] at h
    split_ifs at h <;>
      (injection h with h; subst h;
       exact ⟨by simp [halt_set_cond, halt_setr, halt_setm, halt_addr],
         Or.inl (by simp [getr_setr, getr_setm, getr_addr, hPC, h7, hdr])⟩)
  rw [if_neg q4] at h
  by_cases q5 : instr >>> 12 = 5
  · rw [if_pos q5] at h
    split_ifs at h <;>
      (injection h with h; subst h;
       exact ⟨by simp [halt_set_cond, halt_setr, halt_setm, halt_addr],
         Or.inl (by simp [getr_setr, getr_setm, getr_addr, hPC, h7, hdr])⟩)
  rw [if_neg q5] at h
  by_cases q6 : instr >>> 12 = 6
  · rw [if_pos q6] at h
    injection h with h; subst h
    exact ⟨by simp [halt_set_cond, halt_setr, halt_setm, halt_addr],
      Or.inl (by simp [getr_setr, getr_setm, getr_addr, hPC, h7, hdr])⟩
  rw [if_neg q6] at h
  by_cases q7 : instr >>> 12 = 7
  · rw [if_pos q7] at h
    injection h with h; subst h
    exact ⟨by simp [halt_set_cond, halt_setr, halt_setm, halt_addr],
      Or.inl (by simp [getr_setr, getr_setm, getr_addr, hPC, h7, hdr])⟩
  rw [if_neg q7] at h
  by_cases q8 : instr >>> 12 = 8
  · rw [if_pos q8] at h
    injection h with h; subst h
    exact ⟨rfl, Or.inl rfl⟩
  rw [if_neg q8] at h
  by_cases q9 : instr >>> 12 = 9
  · rw [if_pos q9] at h
    injection h with h; subst h
    exact ⟨by simp [halt_set_cond, halt_setr, halt_setm, halt_addr],
      Or.inr (getr_set_cond_cond _ _)⟩
  rw [if_neg q9] at h
  by_cases q10 : instr >>> 12 = 10
  · rw [if_pos q10] at h
    injection h with h; subst h
    exact ⟨by simp [halt_set_cond, halt_setr, halt_setm, halt_addr],
      Or.inr (getr_set_cond_cond _ _)⟩
  rw [if_neg q10] at h
  by_cases q11 : instr >>> 12 = 11
  · rw [if_pos q11] at h
    injection h with h; subst h
    exact ⟨by simp [halt_set_cond, halt_setr, halt_setm, halt_addr],
      Or.inl (by simp [getr_setr, getr_setm, getr_addr, hPC, h7, hdr])⟩
  rw [if_neg q11] at h
  by_cases q12 : instr >>> 12 = 12
  · rw [if_pos q12] at h
    injection h with h; subst h
    exact ⟨by simp [halt_set_cond, halt_setr, halt_setm, halt_addr],
      Or.inl (by simp [getr_setr, getr_setm, getr_addr, hPC, h7, hdr])⟩
  rw [if_neg q12] at h
  by_cases q13 : instr >>> 12 = 13
  · rw [if_pos q13] at h
    injection h with h; subst h
    exact ⟨rfl, Or.inl rfl⟩
  rw [if_neg q13] at h
  by_cases q14 : instr >>> 12 = 14
  · rw [if_pos q14] at h
    injection h with h; subst h
    exact ⟨by simp [halt_set_cond, halt_setr, halt_setm, halt_addr],
      Or.inr (getr_set_cond_cond _ _)⟩
  rw [if_neg q14] at h
  split_ifs at h
  all_goals
    injection h with h
    subst h
    exact ⟨by simp [halt_set_cond, halt_setr, halt_setm, halt_addr],
      Or.inl (by simp [getr_setr, getr_setm, getr_addr, hPC, h7, hdr])⟩

/-- No step ever writes the halt flag. -/
theorem step_halt (m m2 : Machine) (h : m.step = some m2) : m2.halt = m.halt :=
  (exec_shape (m.inc) m.fetch m2 h).1

/-- After any step, COND is either its previous value or a legal flag. -/
theorem step_cond (m m2 : Machine) (h : m.step = some m2) :
    m2.getr COND = m.getr COND ∨ m2.getr COND = POS ∨
      m2.getr COND = ZRO ∨ m2.getr COND = NEG := by
  have hPC : COND ≠ PC := by simp [COND, PC]
  have h1 : (m.inc).getr COND = m.getr COND := by
    simp [getr_inc, hPC]
  have h2 := (exec_shape (m.inc) m.fetch m2 h).2
  rw [h1] at h2
  exact h2

/-! ## Concrete machine states used to exercise single instructions -/

/-- `TRAP x25` (`HALT`, word `0xF025`) loaded at the start address. -/
def haltTrapMachine : Machine := (Machine.new.init).setm 0x3000 0xF025

/-- COND = `POS`; the word at `0x3000` is a BR with n = z = p = 0 and
offset 5 (`0x0005`), which the architecture documents as never taken. -/
def brNoneSetMachine : Machine :=
  ((Machine.new.init).setr COND POS).setm 0x3000 0x0005

/-- COND = `ZRO`; the word at `0x3000` is `BRnzp` with offset 5
(`0x0E05`), which the architecture documents as always taken. -/
def brAllSetMachine : Machine :=
  ((Machine.new.init).setr COND ZRO).setm 0x3000 0x0E05

/-- R2 = `0x4000`; the word at `0x3000` is `JMP R2` (`0xC080`). -/
def jmpMachine : Machine := ((Machine.new.init).setr 2 0x4000).setm 0x3000 0xC080

/-- R3 = `0x5000`; the word at `0x3000` is `JSRR R3` (`0x40C0`). -/
def jsrrMachine : Machine := ((Machine.new.init).setr 3 0x5000).setm 0x3000 0x40C0

/-- R1 = `0x4000`, `mem[0x4000] = 0x1234`, `mem[1] = 7`, COND = `ZRO`;
the word at `0x3000` is `LDR R0, R1, 0` (`0x6040`). -/
def ldrMachine : Machine :=
  (((((Machine.new.init).setr 1 0x4000).setr COND ZRO).setm 0x4000 0x1234).setm
    1 7).setm 0x3000 0x6040

/-- R1 = `0xBEEF`; the word at `0x3000` is `ST R1, 2` (`0x3202`). -/
def stMachine : Machine := ((Machine.new.init).setr 1 0xBEEF).setm 0x3000 0x3202

/-- R1 = 3, COND = `NEG`; the word at `0x3000` is `AND R0, R1, #1`
(`0x5061`). -/
def andMachine : Machine :=
  (((Machine.new.init).setr 1 3).setr COND NEG).setm 0x3000 0x5061

/-- R0 = 5; the word at `0x3000` is `ST R0, 0` (`0x3000`). -/
def stFrameMachine : Machine := ((Machine.new.init).setr 0 5).setm 0x3000 0x3000

/-- R1 = `0x8000`, R2 = `0x8005`; the word at `0x3000` is
`ADD R0, R1, R2` (`0x1042`), whose operand sum overflows 16 bits. -/
def addRegMachine : Machine :=
  (((Machine.new.init).setr 1 0x8000).setr 2 0x8005).setm 0x3000 0x1042

/-- R1 = 5; the word at `0x3000` is `ADD R0, R1, #-1` (`0x107F`). -/
def addImmMachine : Machine :=
  ((Machine.new.init).setr 1 5).setm 0x3000 0x107F

/-- A machine whose program counter sits at the top of memory. -/
def pcWrapMachine : Machine := Machine.new.setr PC 0xFFFF

/-! ## Claim theorems -/

/-- C1: the spec says a `TRAP` with vector `0x25` (`HALT`) sets the halt
flag after one step.  In the code the trap is only logged as
unimplemented: stepping `haltTrapMachine` leaves `halt` false (with PC
advanced past the trap word), and no step of any machine ever changes
the halt flag at all. -/
theorem trap_halt_leaves_halt_false :
    ((haltTrapMachine.step).map (fun m2 => (m2.halt, m2.getr PC)) =
      some (false, 0x3001)) ∧
    (∀ m : Machine, (m.step.all fun m2 => m2.halt == m.halt) = true) := by
  refine ⟨rfl, fun m => ?_⟩
  rcases h : m.step with _ | m2
  · rfl
  · simp [Option.all, step_halt m m2 h]

/-- C2: the spec says a branch is taken iff the encoded n/z/p bit
matching the current COND flag is set.  The code decodes the n/z/p bits
inverted (`== 0`) and uses `p || P` instead of `p && P`: a BR with all
three bits clear (documented: never taken) is taken when COND = `POS`,
while `BRnzp` (documented: always taken) is not taken when COND =
`ZRO`. -/
theorem br_takes_inverted_conditions :
    ((brNoneSetMachine.step).map (fun m2 => m2.getr PC) = some 0x3006) ∧
    ((brAllSetMachine.step).map (fun m2 => m2.getr PC) = some 0x3001) :=
  ⟨rfl, rfl⟩

/-- C3: the spec says `JMP`/`JSRR` load PC with the *contents* of the
base register (and `JSRR` saves the advanced PC in R7).  The code stores
the register *index* into PC: `JMP R2` with R2 = `0x4000` yields PC = 2,
and `JSRR R3` with R3 = `0x5000` yields PC = 3 (R7 does get `0x3001`). -/
theorem jmp_jsrr_load_register_index :
    ((jmpMachine.step).map (fun m2 => m2.getr PC) = some 2) ∧
    ((jsrrMachine.step).map (fun m2 => (m2.getr PC, m2.getr 7)) =
      some (3, 0x3001)) :=
  ⟨rfl, rfl⟩

/-- C4: the spec says `LDR` reads `memory[register[base] + offset]` and
updates the flags, and `ST` writes `memory[PC + offset]`.  The code uses
the register index `base` and the register-index constant `PC = 8` as
the address operands: `LDR R0, R1, 0` with R1 = `0x4000` loads
`mem[1] = 7` (not `mem[0x4000] = 0x1234`) and leaves COND at `ZRO`, and
`ST R1, 2` writes `mem[10]` instead of `mem[0x3003]`. -/
theorem ldr_st_use_index_as_address :
    ((ldrMachine.step).map (fun m2 => (m2.getr 0, m2.getr COND)) =
      some (7, ZRO)) ∧
    ((stMachine.step).map (fun m2 => (m2.getm 10, m2.getm 0x3003)) =
      some (0xBEEF, 0)) :=
  ⟨rfl, rfl⟩

/-- C5: the spec says `AND` sets dr to `sr1 & operand` and then updates
COND from the new dr value.  The code computes dr correctly but never
calls `set_cond`: `AND R0, R1, #1` with R1 = 3 stores the positive value
1 in R0, yet COND keeps its prior value `NEG`. -/
theorem and_omits_flag_update :
    (andMachine.step).map (fun m2 => (m2.getr 0, m2.getr COND)) =
      some (1, NEG) :=
  rfl

/-- C7: the spec says one step writes only the documented target
location (plus PC, COND, R7 where documented).  `ST R0, 0` at
PC = `0x3000` with R0 = 5 is documented to write `mem[0x3001]`, but the
code writes the unrelated word `mem[8]` (the `PC` register-index
constant plus offset) and leaves the documented target untouched. -/
theorem st_writes_untargeted_word :
    (stFrameMachine.step).map (fun m2 => (m2.getm 8, m2.getm 0x3001)) =
      some (5, 0) :=
  rfl

/-- C9: after `init()` the program counter is `0x3000` and the halt flag
is false, for every starting machine state. -/
theorem init_sets_pc_and_clears_halt (m : Machine) :
    (m.init).getr PC = 0x3000 ∧ (m.init).halt = false :=
  ⟨rfl, rfl⟩

/-- C6: register/PC arithmetic wraps modulo `2^16`: `addr` stores
`(old + delta) % 65536` for every register index, `ADD` (both
register and immediate mode) stores the operand sum reduced `% 65536`
into dr, and advancing PC from `0xFFFF` wraps to 0 rather than
failing. -/
theorem arith_wraps_mod_2_16 :
    (∀ (m : Machine) (r v : Nat), r < REG_SIZE →
        (m.addr r v).getr r = (m.getr r + v) % 65536) ∧
    (∀ (m : Machine) (instr : Nat),
        m.fetch = instr → instr >>> 12 = 1 → (instr >>> 5) &&& 0x1 = 0 →
        (m.step).map (fun m2 => m2.getr ((instr >>> 9) &&& 0x7)) =
          some ((m.getr ((instr >>> 6) &&& 0x7) +
                 m.getr (instr &&& 0x7)) % 65536)) ∧
    (∀ (m : Machine) (instr : Nat),
        m.fetch = instr → instr >>> 12 = 1 → (instr >>> 5) &&& 0x1 = 1 →
        (m.step).map (fun m2 => m2.getr ((instr >>> 9) &&& 0x7)) =
          some ((m.getr ((instr >>> 6) &&& 0x7) +
                 sign_extend (instr &&& 0x1F) 5) % 65536)) ∧
    (∀ m : Machine, m.getr PC = 0xFFFF → (m.addr PC 1).getr PC = 0) := by
  refine ⟨fun m r v _ => ?_, fun m instr hf hop hmode => ?_,
    fun m instr hf hop hmode => ?_, fun m hpc => ?_⟩
  · rw [getr_addr, if_pos rfl]
  · have hdrC : ((instr >>> 9) &&& 0x7) ≠ COND := by
      have := and7_lt (instr >>> 9)
      simp only [COND]
      omega
    have hsr1 : ((instr >>> 6) &&& 0x7) ≠ PC := by
      have := and7_lt (instr >>> 6)
      simp only [PC]
      omega
    have hsr2 : (instr &&& 0x7) ≠ PC := by
      have := and7_lt instr
      simp only [PC]
      omega
    unfold Machine.step Machine.exec
    rw [hf, hop, hmode]
    norm_num
    simp [getr_set_cond_ne _ _ _ hdrC, getr_setr_self, getr_inc, hsr1, hsr2]
  · have hdrC : ((instr >>> 9) &&& 0x7) ≠ COND := by
      have := and7_lt (instr >>> 9)
      simp only [COND]
      omega
    have hsr1 : ((instr >>> 6) &&& 0x7) ≠ PC := by
      have := and7_lt (instr >>> 6)
      simp only [PC]
      omega
    unfold Machine.step Machine.exec
    rw [hf, hop, hmode]
    norm_num
    simp [getr_set_cond_ne _ _ _ hdrC, getr_setr_self, getr_inc, hsr1]
  · rw [getr_addr, if_pos rfl, hpc]

/-- Witness for C6 at concrete inputs: `0x8000 + 0x8005` wraps to 5,
`5 + sign_extend(0x1F, 5)` wraps to 4, and PC at `0xFFFF` advances
to 0. -/
theorem arith_wraps_mod_2_16_witness :
    ((Machine.new.addr 0 3).getr 0 = (Machine.new.getr 0 + 3) % 65536) ∧
    ((addRegMachine.step).map (fun m2 => m2.getr ((0x1042 >>> 9) &&& 0x7)) =
      some ((addRegMachine.getr ((0x1042 >>> 6) &&& 0x7) +
             addRegMachine.getr (0x1042 &&& 0x7)) % 65536)) ∧
    ((addImmMachine.step).map (fun m2 => m2.getr ((0x107F >>> 9) &&& 0x7)) =
      some ((addImmMachine.getr ((0x107F >>> 6) &&& 0x7) +
             sign_extend (0x107F &&& 0x1F) 5) % 65536)) ∧
    ((pcWrapMachine.addr PC 1).getr PC = 0) :=
  ⟨arith_wraps_mod_2_16.1 Machine.new 0 3 (by decide),
   arith_wraps_mod_2_16.2.1 addRegMachine 0x1042 rfl (by decide) (by decide),
   arith_wraps_mod_2_16.2.2.1 addImmMachine 0x107F rfl (by decide) (by decide),
   arith_wraps_mod_2_16.2.2.2 pcWrapMachine rfl⟩

/-- C10: after `new()` (and still after `init()`) COND holds 0, which is
none of the legal flags `POS`/`ZRO`/`NEG`; any step either leaves COND
unchanged or sets it to a legal flag (so 0 can only disappear, never
reappear, through instructions), and with COND = 0 no documented BR
condition `(n ∧ NEG) ∨ (z ∧ ZRO) ∨ (p ∧ POS)` can hold. -/
theorem cond_starts_unset :
    Machine.new.getr COND = 0 ∧
    ((Machine.new.getr COND == POS) || (Machine.new.getr COND == ZRO) ||
      (Machine.new.getr COND == NEG)) = false ∧
    Machine.new.init.getr COND = 0 ∧
    (∀ m : Machine,
      (m.step.all fun m2 =>
        (m2.getr COND == m.getr COND) || (m2.getr COND == POS) ||
        (m2.getr COND == ZRO) || (m2.getr COND == NEG)) = true) ∧
    (∀ n z p : Bool,
      ((n && (Machine.new.getr COND == NEG)) ||
       (z && (Machine.new.getr COND == ZRO)) ||
       (p && (Machine.new.getr COND == POS))) = false) := by
  refine ⟨rfl, rfl, rfl, fun m => ?_, by decide⟩
  rcases h : m.step with _ | m2
  · rfl
  · rcases step_cond m m2 h with h1 | h1 | h1 | h1 <;>
      simp [Option.all, h1]

/-- Auxiliary: OR-ing a 16-bit value with the all-ones word `0xFFFF`
yields `0xFFFF`. -/
theorem or_ones (v : Nat) (hv : v < 65536) : v ||| 65535 = 65535 := by
  apply Nat.eq_of_testBit_eq
  intro i
  rw [Nat.testBit_or]
  by_cases hi : i < 16
  · rw [show (65535 : Nat) = 2 ^ 16 - 1 by norm_num,
      Nat.testBit_two_pow_sub_one]
    simp [hi]
  · have h1 : v < 2 ^ i := by
      calc v < 65536 := hv
      _ = 2 ^ 16 := by norm_num
      _ ≤ 2 ^ i := Nat.pow_le_pow_right (by norm_num) (le_of_not_lt hi)
    rw [Nat.testBit_lt_two_pow h1,
      show (65535 : Nat) = 2 ^ 16 - 1 by norm_num,
      Nat.testBit_two_pow_sub_one]
    simp [hi]

/-- C8 counterexample: `sign_extend` is not the identity at full width.
With the `u16` shift-amount masking of the source (`0xFFFF << 16`
becomes `0xFFFF << 0`), `sign_extend 0x8000 16 = 0xFFFF ≠ 0x8000`. -/
theorem sign_extend_full_width_not_identity :
    (sign_extend 0x8000 16 == 0x8000) = false := by decide

/-- C8 (amended): `sign_extend` is total and pure, but idempotence at
width 16 only holds for values with bit 15 clear; with bit 15 set the
masked shift turns the high mask into `0xFFFF` and the result is
`0xFFFF`.  For widths `n` in `1..16` and `v` with only the low `n` bits
set, bit `n-1` decides the high bits: if clear the result is `v` (high
bits all 0), if set the low `n` bits survive unchanged and bits
`n..15` are all 1 (the result shifted right by `n` is `2^(16-n) - 1`). -/
theorem sign_extend_amended :
    (∀ v : Nat, v < 65536 → (v >>> 15) &&& 1 = 0 → sign_extend v 16 = v) ∧
    (∀ v : Nat, v < 65536 → (v >>> 15) &&& 1 = 1 →
      sign_extend v 16 = 0xFFFF) ∧
    (∀ n : Nat, 1 ≤ n → n ≤ 15 → ∀ v : Nat, v < 2 ^ n →
      ((v >>> (n - 1)) &&& 1 = 0 →
        sign_extend v n = v ∧ sign_extend v n >>> n = 0) ∧
      ((v >>> (n - 1)) &&& 1 = 1 →
        sign_extend v n % 2 ^ n = v ∧
        sign_extend v n >>> n = 2 ^ (16 - n) - 1)) := by
  refine ⟨fun v hv h => ?_, fun v hv h => ?_, fun n hn1 hn15 v hv => ?_⟩
  · simp [sign_extend, h]
  · have hne : ¬((v >>> ((16 - 1) % 16)) &&& 1 = 0) := by
      rw [show ((16 : Nat) - 1) % 16 = 15 from rfl]
      omega
    unfold sign_extend
    rw [if_neg hne]
    norm_num
    exact or_ones v hv
  · have hsh : (n - 1) % 16 = n - 1 := Nat.mod_eq_of_lt (by omega)
    have hpow : 2 ^ n ≤ 32768 := by
      calc 2 ^ n ≤ 2 ^ 15 := Nat.pow_le_pow_right (by norm_num) hn15
      _ = 32768 := by norm_num
    have hpos : 0 < 2 ^ n := pow_pos (by norm_num) n
    have hmul : 2 ^ n * 2 ^ (16 - n) = 65536 := by
      rw [← pow_add, show n + (16 - n) = 16 by omega]
      norm_num
    have hp16 : 0 < 2 ^ (16 - n) := pow_pos (by norm_num) (16 - n)
    have h1 : 65536 - 2 ^ n = 2 ^ n * (2 ^ (16 - n) - 1) := by
      rw [show 2 ^ (16 - n) - 1 = Nat.pred (2 ^ (16 - n)) from rfl,
        Nat.mul_pred, hmul]
    have hc : (0xFFFF <<< (n % 16)) % 65536 = 65536 - 2 ^ n := by
      rw [Nat.mod_eq_of_lt (show n < 16 by omega), Nat.shiftLeft_eq]
      have key : 65535 * 2 ^ n = (65536 - 2 ^ n) + (2 ^ n - 1) * 65536 := by
        omega
      rw [key, Nat.add_mul_mod_self_right]
      exact Nat.mod_eq_of_lt (by omega)
    constructor
    · intro h
      have hcond : (v >>> ((n - 1) % 16)) &&& 1 = 0 := by rwa [hsh]
      have hse : sign_extend v n = v := by
        unfold sign_extend
        rw [if_pos hcond]
      refine ⟨hse, ?_⟩
      rw [hse, Nat.shiftRight_eq_div_pow]
      exact Nat.div_eq_of_lt hv
    · intro h
      have hcond : ¬((v >>> ((n - 1) % 16)) &&& 1 = 0) := by
        rw [hsh]
        omega
      have hse : sign_extend v n = v ||| (65536 - 2 ^ n) := by
        unfold sign_extend
        rw [if_neg hcond, hc]
      have hdisj : v ||| (65536 - 2 ^ n) = v + (65536 - 2 ^ n) := by
        calc v ||| (65536 - 2 ^ n)
            = 2 ^ n * (2 ^ (16 - n) - 1) ||| v := by rw [h1, Nat.lor_comm]
          _ = 2 ^ n * (2 ^ (16 - n) - 1) + v :=
              (Nat.mul_add_lt_is_or hv _).symm
          _ = v + (65536 - 2 ^ n) := by rw [← h1]; omega
      have hfinal : sign_extend v n = v + (65536 - 2 ^ n) := by
        rw [hse, hdisj]
      constructor
      · rw [hfinal, h1, Nat.add_mul_mod_self_left]
        exact Nat.mod_eq_of_lt hv
      · rw [hfinal, h1, Nat.shiftRight_eq_div_pow,
          Nat.add_mul_div_left _ _ hpos, Nat.div_eq_of_lt hv]
        omega

/-- Witness for C8 (amended) at width 16 with bit 15 clear and set, and
at width 5 for the value `0x10` (sign bit set). -/
theorem sign_extend_amended_witness :
    sign_extend 0x1234 16 = 0x1234 ∧
    sign_extend 0x8001 16 = 0xFFFF ∧
    (sign_extend 0x10 5 % 2 ^ 5 = 0x10 ∧
      sign_extend 0x10 5 >>> 5 = 2 ^ (16 - 5) - 1) :=
  ⟨sign_extend_amended.1 0x1234 (by decide) (by decide),
   sign_extend_amended.2.1 0x8001 (by decide) (by decide),
   (sign_extend_amended.2.2 5 (by decide) (by decide) 0x10 (by decide)).2
     (by decide)⟩

end LC3
